import Mathlib

/-!
Verification of the Cookify retrieval core against its specification.

The development shallowly embeds the three core components of the
repository:

* `backend/chatbot/vector_db_manager.py` — the `VectorDBManager` FAISS
  wrapper (index creation, `add_documents`, `search`, `get_stats`);
* `backend/chatbot/mongodb_sync.py` — the `RecipeSearchOptimizer`
  multi-strategy retrieval engine (`multi_strategy_search` and its four
  strategies);
* `backend/chatbot/confidence_scorer.py` — the `AdvancedConfidenceScorer`
  multi-factor confidence pipeline.

Modelling conventions:

* Python floats are modelled as real numbers (`ℝ`); the code applies
  transcendental functions (`np.exp`, the L2 norm's square root), so `ℝ`
  is the faithful carrier.  Machine rounding is not modelled.
* Python strings are Lean `String`s.  `str.lower()` is modelled by
  `String.toLower` and `str.strip()` by `String.trim` (the code's string
  constants are ASCII-cased, so the ASCII-only case folding of `Char.toLower`
  is adequate for every property proved here).
* A Python `datetime` is modelled at day granularity by an integer day
  number; `(current_time - created_time).days` becomes integer subtraction.
* Fallible operations return their error explicitly instead of raising.
-/

namespace Cookify

/-! ## Generic helpers -/

/-- Python's `str.lower()` on the character list of a string (the string
constants the code compares against are already lower-case, and ASCII
case-folding covers every cased character they contain). -/
def lower (s : List Char) : List Char := s.map Char.toLower

/-- Python's `str.strip()`: drop whitespace from both ends. -/
def strip (s : List Char) : List Char :=
  ((s.dropWhile Char.isWhitespace).reverse.dropWhile Char.isWhitespace).reverse

/-- Python's `needle in hay` substring test. -/
def containsL (hay needle : List Char) : Bool :=
  hay.tails.any (fun t => needle.isPrefixOf t)

/-- Python's `s.endswith(suffix)`. -/
def endsWithL (s suffix : List Char) : Bool :=
  suffix.reverse.isPrefixOf s.reverse

/-- `np.mean` of a list of reals (sum divided by length). -/
noncomputable def mean (l : List ℝ) : ℝ := l.sum / l.length

/-! ## Vector index (`vector_db_manager.py`) -/

/-- The dynamic type of the FAISS index object held in `self.index`
(`IndexFlatIP`, `IndexIVFFlat` or `IndexHNSWFlat`); this is distinct from the
`self.index_type` string attribute, which the code never updates after
construction. -/
inductive IndexKind where
  | flat
  | ivf
  | hnsw
deriving DecidableEq

/-- Errors raised by `VectorDBManager`.  `add_documents` raises `ValueError`
when the batch's vector width differs from the index dimension. -/
inductive VErr where
  | dimensionMismatch (got expected : ℕ)
deriving DecidableEq

/-- A 2-D `numpy` array of floats: a list of rows together with the common
row width `shape[1]`.  `numpy` guarantees every row of a 2-D array has the
same length, recorded here by `hcols`. -/
structure NDArray2 where
  data : List (List ℝ)
  cols : ℕ
  hcols : ∀ v ∈ data, v.length = cols

/-- `faiss.normalize_L2`: divide every component by the vector's L2 norm. -/
noncomputable def l2normalize (v : List ℝ) : List ℝ :=
  v.map (fun x => x / Real.sqrt ((v.map (fun y => y * y)).sum))

/-- Inner product of two equally indexed vectors. -/
def dot (a b : List ℝ) : ℝ := (List.zipWith (· * ·) a b).sum

/-- The mutable state of a `VectorDBManager`, parameterized by the metadata
entry type `M` (the Python code stores arbitrary dicts).  `vectors` are the
embeddings held by the *current* `self.index` object; `metadata` is the
parallel `self.metadata` list. -/
structure VDB (M : Type) where
  dimension : ℕ
  index_type : String
  indexKind : IndexKind
  vectors : List (List ℝ)
  metadata : List M
  is_trained : Bool

/-- `VectorDBManager._create_index`: select the FAISS index object from the
`index_type` string.  (Constructing a manager with a string outside
`Flat`/`IVF`/`HNSW` leaves `self.index = None` in Python and crashes on first
use; such states are outside the spec's strategy set and are not modelled —
the wildcard arm is never exercised by any theorem below.) -/
def createIndexKind (t : String) : IndexKind :=
  if t = "Flat" then .flat
  else if t = "IVF" then .ivf
  else if t = "HNSW" then .hnsw
  else .flat

/-- `VectorDBManager.__init__(dimension, index_type)`. -/
def createVDB (M : Type) (dimension : ℕ) (index_type : String) : VDB M :=
  { dimension := dimension
    index_type := index_type
    indexKind := createIndexKind index_type
    vectors := []
    metadata := []
    is_trained := false }

/-- `VectorDBManager.add_documents(embeddings, metadata)`.

Returns the state after the call together with the raised error, if any;
the `ValueError` for a dimension mismatch is raised before any mutation, so
the state comes back unchanged in that case.

For an untrained `IVF` manager: a batch of at least 100 rows trains the
index (`self.index.train`, which does not change the stored vectors) and
sets `is_trained`; a smaller batch *replaces* `self.index` with a brand-new
empty `IndexFlatIP` — discarding any vectors the previous index object held,
while `self.metadata` is kept — and leaves both `index_type` and
`is_trained` untouched. -/
noncomputable def add_documents {M : Type} (st : VDB M) (e : NDArray2)
    (md : List M) : VDB M × Option VErr :=
  if e.cols ≠ st.dimension then
    (st, some (.dimensionMismatch e.cols st.dimension))
  else
    let rows := e.data.map l2normalize
    let st1 :=
      if st.index_type = "IVF" ∧ st.is_trained = false then
        if 100 ≤ e.data.length then
          { st with is_trained := true }
        else
          { st with indexKind := .flat, vectors := [] }
      else st
    ({ st1 with vectors := st1.vectors ++ rows,
                metadata := st1.metadata ++ md }, none)

/-- One entry of the result list built by `VectorDBManager.search`:
`{'metadata': self.metadata[idx], 'similarity_score': float(score),
'index': int(idx)}`.  The metadata lookup is modelled with `List.get?`
(on an index/metadata desynchronization Python would raise `IndexError`
instead; every property proved below concerns the scores and ordering). -/
structure SearchHit (M : Type) where
  metadata : Option M
  similarity_score : ℝ
  index : ℕ

/-- Ranking relation used to model the FAISS contract: hits come back in
decreasing score order, ties broken by ascending insertion ordinal. -/
def hitRel (a b : ℝ × ℕ) : Prop :=
  b.1 < a.1 ∨ (a.1 = b.1 ∧ a.2 ≤ b.2)

noncomputable instance : DecidableRel hitRel := fun _ _ =>
  inferInstanceAs (Decidable (_ ∨ _))

instance : IsTotal (ℝ × ℕ) hitRel where
  total a b := by
    rcases lt_trichotomy a.1 b.1 with h | h | h
    · exact Or.inr (Or.inl h)
    · rcases Nat.le_total a.2 b.2 with h2 | h2
      · exact Or.inl (Or.inr ⟨h, h2⟩)
      · exact Or.inr (Or.inr ⟨h.symm, h2⟩)
    · exact Or.inl (Or.inl h)

instance : IsTrans (ℝ × ℕ) hitRel where
  trans a b c hab hbc := by
    rcases hab with h1 | ⟨e1, l1⟩
    · rcases hbc with h2 | ⟨e2, _⟩
      · exact Or.inl (h2.trans h1)
      · exact Or.inl (e2 ▸ h1)
    · rcases hbc with h2 | ⟨e2, l2⟩
      · exact Or.inl (e1 ▸ h2)
      · exact Or.inr ⟨e1.trans e2, l1.trans l2⟩

/-- `VectorDBManager.search(query_embedding, k, threshold)`.

The empty-index guard mirrors `if self.index.ntotal == 0: return []`.  The
call `self.index.search(query_embedding, k)` is modelled by its contract for
the exact inner-product index: the `k` best (score, ordinal) pairs in
decreasing score order (ties by insertion ordinal); when the index holds
fewer than `k` vectors FAISS pads the remaining slots with index `-1`, which
the Python loop drops with its `idx != -1` test — here the ranked list is
simply shorter than `k`.  The loop then keeps the hits whose score reaches
`threshold`. -/
noncomputable def search {M : Type} (st : VDB M) (q : List ℝ) (k : ℕ)
    (threshold : ℝ) : List (SearchHit M) :=
  if st.vectors.length = 0 then []
  else
    let qn := l2normalize q
    let scored := st.vectors.enum.map (fun p => (dot qn p.2, p.1))
    let ranked := (List.insertionSort hitRel scored).take k
    (ranked.filter (fun p => decide (threshold ≤ p.1))).map
      (fun p => ⟨st.metadata.get? p.2, p.1, p.2⟩)

/-- The record returned by `VectorDBManager.get_stats`. -/
structure Stats where
  total_documents : ℕ
  index_type : String
  dimension : ℕ
  is_trained : Bool
  index_size_mb : ℝ

/-- `VectorDBManager.get_stats()`. -/
noncomputable def get_stats {M : Type} (st : VDB M) : Stats :=
  { total_documents := st.metadata.length
    index_type := st.index_type
    dimension := st.dimension
    is_trained := st.is_trained
    index_size_mb := (st.vectors.length * st.dimension * 4 : ℝ) / (1024 * 1024) }

/-! ## Multi-strategy retrieval engine (`mongodb_sync.py`, `RecipeSearchOptimizer`) -/

/-- A recipe document as consumed by `RecipeSearchOptimizer`.  Python reads
the fields with `recipe.get(...)`: a missing `_id` yields `None` (modelled by
`none`); a missing or empty `name` is falsy exactly like the empty string, so
`name` is a plain string with `""` for absent; likewise `ingredients` with
`[]` and `category` with `""` (the category codes compared against are all
non-empty). -/
structure Recipe where
  rid : Option ℕ
  name : String := ""
  ingredients : List String := []
  category : String := ""
deriving DecidableEq

/-- A result dict produced by one of the four strategies:
`{**recipe, 'match_type': ..., ['similarity_score': ...]}`.  Only the
semantic strategy attaches a `similarity_score` key. -/
structure SR where
  recipe : Recipe
  match_type : String
  similarity_score : Option ℝ := none

/-- `RecipeSearchOptimizer._exact_match_search`: keep the recipes with a
truthy name containing the lowered query as a substring. -/
def exact_match_search (query : String) (recipes : List Recipe) : List SR :=
  (recipes.filter (fun r =>
      r.name ≠ "" && containsL (lower r.name.toList) (lower query.toList))).map
    (fun r => { recipe := r, match_type := "exact_name" })

/-- `RecipeSearchOptimizer._ingredient_based_search`: keep the recipes with a
truthy ingredient list whose space-joined lowered text contains the lowered
query. -/
def ingredient_based_search (query : String) (recipes : List Recipe) :
    List SR :=
  (recipes.filter (fun r =>
      !r.ingredients.isEmpty &&
        containsL (lower (List.intercalate [' '] (r.ingredients.map String.toList)))
          (lower query.toList))).map
    (fun r => { recipe := r, match_type := "ingredient" })

/-- The fixed phrase-to-code table of `_category_filter_search`, in the
source's iteration order. -/
def categoryKeywords : List (String × String) :=
  [("món chính", "monchinh"), ("món phụ", "monphu"),
   ("tráng miệng", "trangmieng"), ("đồ uống", "douong"),
   ("ăn vặt", "anvat")]

/-- `RecipeSearchOptimizer._category_filter_search`: take the first table
phrase contained in the lowered query; with no hit return `[]`, otherwise
keep the recipes whose category equals the phrase's code. -/
def category_filter_search (query : String) (recipes : List Recipe) :
    List SR :=
  match categoryKeywords.find? (fun kv =>
      containsL (lower query.toList) kv.1.toList) with
  | none => []
  | some kv =>
      (recipes.filter (fun r => r.category = kv.2)).map
        (fun r => { recipe := r, match_type := "category" })

/-- Descending order on the `similarity_score` key, used by the semantic
strategy's `results.sort(key=lambda x: x['similarity_score'], reverse=True)`
(every dict it sorts carries the key; `getD` only supplies a default for the
other strategies' dicts, which are never sorted). -/
def srRel (a b : SR) : Prop :=
  b.similarity_score.getD 0 ≤ a.similarity_score.getD 0

noncomputable instance : DecidableRel srRel := fun _ _ =>
  inferInstanceAs (Decidable (_ ≤ _))

/-- `RecipeSearchOptimizer._semantic_search(query, recipes, embeddings,
model, threshold=0.7)`: bail out with `[]` on a length mismatch, score every
recipe by the inner product of its embedding with `model.encode([query])`,
keep those at or above the threshold and sort them by descending similarity
(Python's sort is stable, as is insertion sort). -/
noncomputable def semantic_search (query : String) (recipes : List Recipe)
    (embeddings : List (List ℝ)) (encode : String → List ℝ)
    (threshold : ℝ := 0.7) : List SR :=
  if recipes.length ≠ embeddings.length then []
  else
    let qe := encode query
    let paired := List.zip recipes (embeddings.map (fun e => dot e qe))
    let hits := (paired.filter (fun p => decide (threshold ≤ p.2))).map
      (fun p => { recipe := p.1, match_type := "semantic",
                  similarity_score := some p.2 : SR })
    List.insertionSort srRel hits

/-- The deduplication loop of `multi_strategy_search`: walk the concatenated
results, keeping a result only when its `_id` has not been seen yet. -/
def dedupLoop : List SR → List (Option ℕ) → List SR
  | [], _ => []
  | r :: rest, seen =>
      if r.recipe.rid ∈ seen then dedupLoop rest seen
      else r :: dedupLoop rest (r.recipe.rid :: seen)

/-- Specification-level first-occurrence deduplication by document id: keep
each result and drop every later result with the same id. -/
def dedupByIdSpec : List SR → List SR
  | [] => []
  | r :: rest =>
      r :: dedupByIdSpec (rest.filter (fun x => x.recipe.rid ≠ r.recipe.rid))
termination_by l => l.length
decreasing_by
  simp only [List.length_cons]
  exact Nat.lt_succ_of_le (List.length_filter_le _ _)

/-- `RecipeSearchOptimizer.multi_strategy_search(query, recipes, embeddings,
model)`: run the strategies in the fixed order exact, ingredient, category,
then (when both embeddings and model were supplied) semantic; concatenate,
deduplicate by `_id` keeping the first occurrence, and keep the first 10. -/
noncomputable def multi_strategy_search (query : String)
    (recipes : List Recipe) (embeddings : Option (List (List ℝ)))
    (encode : Option (String → List ℝ)) : List SR :=
  let all :=
    exact_match_search query recipes ++
    ingredient_based_search query recipes ++
    category_filter_search query recipes ++
    (match embeddings, encode with
     | some e, some m => semantic_search query recipes e m
     | _, _ => [])
  (dedupLoop all []).take 10

/-! ## Confidence scorer (`confidence_scorer.py`, `AdvancedConfidenceScorer`) -/

/-- The five values of the `ConfidenceLevel` enum. -/
inductive ConfidenceLevel where
  | veryHigh
  | high
  | medium
  | low
  | veryLow
deriving DecidableEq

/-- A retrieved document as consumed by the scorer.  Fields are read with
`doc.get(key, default)`: string fields default to `""`, list fields to `[]`.
`createdAt` distinguishes a missing/falsy value (`none`), a present but
unparseable value (`some none`, the `except` branch of the ISO parse), and a
successfully parsed timestamp (`some (some t)`, in days). -/
structure Doc where
  type : String
  name : String := ""
  searchable_text : String := ""
  question : String := ""
  answer : String := ""
  ingredients : List String := []
  instructions : List String := []
  createdAt : Option (Option ℤ) := none
deriving DecidableEq

/-- A character counts for `\b\w+\b` when it is a word character (the code's
queries and documents are matched on alphanumeric runs; Python's `\w` also
covers the underscore). -/
def isWordChar (c : Char) : Bool := c.isAlphanum || c = '_'

/-- `re.findall(r'\b\w+\b', s)`: the maximal runs of word characters. -/
def wordTokens (s : List Char) : List (List Char) :=
  (s.splitOnP (fun c => !isWordChar c)).filter (fun w => !w.isEmpty)

/-- The document text assembled by `_calculate_keyword_match` per type. -/
def keywordDocText (d : Doc) : List Char :=
  if d.type = "recipe" then (d.name ++ " " ++ d.searchable_text).toList
  else if d.type = "faq" then (d.question ++ " " ++ d.answer).toList
  else []

/-- `AdvancedConfidenceScorer._calculate_semantic_similarity`, shared
weighted average: `np.average(similarity_scores, weights)` with weights
`exp(-i * 0.5)` normalized to sum 1, i.e. `Σ sᵢ·wᵢ / Σ wᵢ`. -/
noncomputable def raw_weighted_avg (scores : List ℝ) : ℝ :=
  let w := (List.range scores.length).map (fun i => Real.exp (-((i : ℝ) * 0.5)))
  let wn := w.map (fun x => x / w.sum)
  (List.zipWith (· * ·) scores wn).sum / wn.sum

/-- `AdvancedConfidenceScorer._calculate_semantic_similarity`: the decayed
weighted average pushed through `2 / (1 + exp(-4 * (avg - 0.5)))` and capped
at 1; the empty score list short-circuits to 0. -/
noncomputable def calc_semantic_similarity (scores : List ℝ) : ℝ :=
  if scores = [] then 0
  else
    let wavg := raw_weighted_avg scores
    let sigmoid := 2 / (1 + Real.exp (-(4 * (wavg - 0.5))))
    min sigmoid 1

/-- `AdvancedConfidenceScorer._calculate_keyword_match`: count, per document,
the distinct query tokens occurring among the document's tokens; divide the
total by the number of documents and by the query's distinct token count and
cap at 1. -/
def calc_keyword_match (query : String) (docs : List Doc) : ℚ :=
  if docs = [] then 0
  else
    let qwords := (wordTokens (lower query.toList)).dedup
    let totalMatches := (docs.map (fun d =>
      (qwords.filter (fun w => w ∈ wordTokens (lower (keywordDocText d)))).length)).sum
    if qwords.length = 0 then 0
    else min (((totalMatches : ℚ) / docs.length) / qwords.length) 1

/-- The `cooking_keywords` table, in the source's iteration order. -/
def cookingKeywords : List (String × List String) :=
  [("ingredients", ["nguyên liệu", "thành phần", "gia vị", "rau củ", "thịt", "cá"]),
   ("cooking_methods", ["nấu", "chiên", "luộc", "nướng", "xào", "hấp", "om", "kho"]),
   ("time_related", ["thời gian", "phút", "giờ", "nhanh", "chậm", "lâu"]),
   ("difficulty", ["dễ", "khó", "đơn giản", "phức tạp", "cơ bản", "nâng cao"]),
   ("taste", ["ngon", "ngọt", "mặn", "chua", "cay", "đắng", "béo"]),
   ("nutrition", ["dinh dưỡng", "vitamin", "protein", "carb", "chất béo", "calo"])]

/-- The document text `_calculate_context_relevance` matches keywords in. -/
def contextDocText (d : Doc) : List Char :=
  if d.type = "recipe" then lower d.searchable_text.toList
  else if d.type = "faq" then lower (d.question ++ " " ++ d.answer).toList
  else []

/-- The per-document score of `_calculate_context_relevance`: 0.2 for each
keyword category present in both the query and the document, 0.3 when a
recipe-style query meets a recipe, 0.3 when a question-style query meets an
FAQ, capped at 1. -/
def contextDocScore (ql : List Char) (d : Doc) : ℚ :=
  let catScore := cookingKeywords.foldl (fun s kv =>
    if kv.2.any (fun kw => containsL ql kw.toList) &&
       kv.2.any (fun kw => containsL (contextDocText d) kw.toList)
    then s + 0.2 else s) 0
  let s1 := catScore +
    (if (containsL ql "công thức".toList || containsL ql "cách làm".toList) &&
        d.type = "recipe" then 0.3 else 0)
  let s2 := s1 +
    (if (["tại sao", "làm sao", "như thế nào", "có nên"].any
          (fun w => containsL ql w.toList)) && d.type = "faq" then 0.3 else 0)
  min s2 1

/-- `np.mean` over rationals. -/
def meanQ (l : List ℚ) : ℚ := l.sum / l.length

/-- `AdvancedConfidenceScorer._calculate_context_relevance`. -/
def calc_context_relevance (query : String) (docs : List Doc) : ℚ :=
  if docs = [] then 0
  else meanQ (docs.map (contextDocScore (lower query.toList)))

/-- The per-document freshness of `_calculate_data_freshness` against the
reference clock `now`: a parsed recipe timestamp decays linearly over a year
(`max(0, 1 - days_old / 365)`); a missing or unparseable recipe timestamp
defaults to 0.7; non-recipe documents score 0.8. -/
def freshnessDocScore (now : ℤ) (d : Doc) : ℚ :=
  if d.type = "recipe" then
    match d.createdAt with
    | some (some t) => max 0 (1 - ((now - t : ℤ) : ℚ) / 365)
    | some none => 0.7
    | none => 0.7
  else 0.8

/-- `AdvancedConfidenceScorer._calculate_data_freshness`; the empty document
list returns the neutral 0.5. -/
def calc_data_freshness (now : ℤ) (docs : List Doc) : ℚ :=
  if docs = [] then 0.5
  else meanQ (docs.map (freshnessDocScore now))

/-- The per-document score of `_calculate_source_reliability`: recipes start
at 0.8 with completeness bonuses, FAQs at 0.9 with a long-answer bonus,
anything else keeps the 0.5 base; each capped at 1. -/
def reliabilityDocScore (d : Doc) : ℚ :=
  if d.type = "recipe" then
    min (0.8 + (if !d.ingredients.isEmpty && !d.instructions.isEmpty then 0.1 else 0)
             + (if 3 ≤ d.instructions.length then 0.1 else 0)) 1
  else if d.type = "faq" then
    min (0.9 + (if 50 < d.answer.length then 0.1 else 0)) 1
  else min 0.5 1

/-- `AdvancedConfidenceScorer._calculate_source_reliability`. -/
def calc_source_reliability (docs : List Doc) : ℚ :=
  if docs = [] then 0.5
  else meanQ (docs.map reliabilityDocScore)

/-- The `specific_words` list of `_calculate_query_clarity`. -/
def specificWords : List String :=
  ["cách làm", "công thức", "nguyên liệu", "thời gian", "làm sao"]

/-- The `question_words` list of `_calculate_query_clarity`. -/
def questionWords : List String :=
  ["gì", "sao", "nào", "bao nhiêu", "như thế nào"]

/-- `AdvancedConfidenceScorer._calculate_query_clarity`: queries under five
characters short-circuit to 0.2; otherwise 0.5 base plus length, specificity,
question-word and question-mark bonuses, capped at 1. -/
def calc_query_clarity (query : String) : ℚ :=
  let ql := strip (lower query.toList)
  if ql.length < 5 then 0.2
  else
    let s1 : ℚ := 0.5 +
      (if 10 ≤ ql.length ∧ ql.length ≤ 50 then 0.2
       else if 50 < ql.length then 0.1 else 0)
    let s2 := s1 + (if specificWords.any (fun w => containsL ql w.toList) then 0.2 else 0)
    let s3 := s2 + (if questionWords.any (fun w => containsL ql w.toList) then 0.1 else 0)
    let s4 := s3 + (if endsWithL ql ['?'] then 0.1 else 0)
    min s4 1

/-- `AdvancedConfidenceScorer._calculate_answer_completeness`: empty or very
short answers short-circuit to 0.1; otherwise 0.5 base plus length, structure
and recipe-completeness bonuses, capped at 1. -/
def calc_answer_completeness (query answer : String) : ℚ :=
  if answer.length < 10 then 0.1
  else
    let s1 : ℚ := 0.5 +
      (if 50 ≤ answer.length ∧ answer.length ≤ 500 then 0.2
       else if 500 < answer.length then 0.1 else 0)
    let s2 := s1 +
      (if ["1.", "2.", "-", "•"].any (fun m => containsL answer.toList m.toList)
       then 0.1 else 0)
    let ql := lower query.toList
    let al := lower answer.toList
    let s3 := s2 +
      (if containsL ql "cách làm".toList || containsL ql "công thức".toList then
         (if containsL al "nguyên liệu".toList then 0.1 else 0) +
         (if ["bước", "cách", "làm"].any (fun w => containsL al w.toList)
          then 0.1 else 0)
       else 0)
    min s3 1

/-- The seven factor values, as inserted into the `factors` dict (in the
source's insertion order). -/
structure Factors where
  semantic_similarity : ℝ
  keyword_match : ℝ
  context_relevance : ℝ
  data_freshness : ℝ
  source_reliability : ℝ
  query_clarity : ℝ
  answer_completeness : ℝ

/-- The `factors` dict as an association list in insertion order (the order
Python iterates it in). -/
def Factors.toList (f : Factors) : List (String × ℝ) :=
  [("semantic_similarity", f.semantic_similarity),
   ("keyword_match", f.keyword_match),
   ("context_relevance", f.context_relevance),
   ("data_freshness", f.data_freshness),
   ("source_reliability", f.source_reliability),
   ("query_clarity", f.query_clarity),
   ("answer_completeness", f.answer_completeness)]

/-- The `self.weights` dict. -/
def weights : List (String × ℝ) :=
  [("semantic_similarity", 0.25),
   ("keyword_match", 0.20),
   ("context_relevance", 0.15),
   ("data_freshness", 0.10),
   ("source_reliability", 0.10),
   ("query_clarity", 0.10),
   ("answer_completeness", 0.10)]

/-- Lookup of `self.weights[factor]`. -/
def weightOf (name : String) : ℝ :=
  ((weights.find? (fun kv => kv.1 = name)).map (fun kv => kv.2)).getD 0

/-- `sum(factors[factor] * self.weights[factor] for factor in factors)`. -/
noncomputable def overallOf (f : Factors) : ℝ :=
  (f.toList.map (fun kv => kv.2 * weightOf kv.1)).sum

/-- `AdvancedConfidenceScorer._get_confidence_level`: the fixed threshold
ladder. -/
noncomputable def get_confidence_level (score : ℝ) : ConfidenceLevel :=
  if 0.9 ≤ score then .veryHigh
  else if 0.7 ≤ score then .high
  else if 0.5 ≤ score then .medium
  else if 0.3 ≤ score then .low
  else .veryLow

/-- Descending order on the factor value, used by
`sorted(factors.items(), key=lambda x: x[1], reverse=True)` (Python's sort is
stable, as is insertion sort). -/
def factorRel (a b : String × ℝ) : Prop := b.2 ≤ a.2

noncomputable instance : DecidableRel factorRel := fun _ _ =>
  inferInstanceAs (Decidable (_ ≤ _))

instance : IsTotal (String × ℝ) factorRel :=
  ⟨fun a b => le_total b.2 a.2⟩

instance : IsTrans (String × ℝ) factorRel :=
  ⟨fun _ _ _ h1 h2 => le_trans h2 h1⟩

/-- The information content of the explanation string built by
`_generate_explanation`: the overall score, the strongest factor
(`sorted_factors[0]`) and the weakest factor (`sorted_factors[-1]`).
The Python function renders these three data into a formatted string; the
numeric formatting itself carries no further logic. -/
structure Explanation where
  overall : ℝ
  strongest : Option (String × ℝ)
  weakest : Option (String × ℝ)

/-- `AdvancedConfidenceScorer._generate_explanation`. -/
noncomputable def generate_explanation (factors : List (String × ℝ))
    (overall : ℝ) : Explanation :=
  let sorted_factors := List.insertionSort factorRel factors
  { overall := overall
    strongest := sorted_factors.head?
    weakest := sorted_factors.getLast? }

/-- `AdvancedConfidenceScorer._generate_recommendations`. -/
noncomputable def generate_recommendations (f : Factors)
    (level : ConfidenceLevel) : List String :=
  if level = .low ∨ level = .veryLow then
    (if f.semantic_similarity < 0.5
     then ["Thử đặt câu hỏi với từ khóa cụ thể hơn"] else []) ++
    (if f.keyword_match < 0.5
     then ["Sử dụng thuật ngữ nấu ăn chính xác hơn"] else []) ++
    (if f.query_clarity < 0.5
     then ["Làm rõ câu hỏi với chi tiết cụ thể"] else [])
  else if level = .medium then
    ["Kết quả khá tốt, có thể cần thêm thông tin để chính xác hơn"]
  else
    ["Kết quả có độ tin cậy cao"]

/-- The `ConfidenceScore` dataclass. -/
structure ConfidenceScore where
  overall_score : ℝ
  level : ConfidenceLevel
  factors : Factors
  explanation : Explanation
  recommendations : List String

/-- `AdvancedConfidenceScorer.calculate_confidence(query, retrieved_docs,
similarity_scores, answer)`; `now` is the reference clock read by
`datetime.now()` inside `_calculate_data_freshness`. -/
noncomputable def calculate_confidence (now : ℤ) (query : String)
    (retrieved_docs : List Doc) (similarity_scores : List ℝ)
    (answer : String) : ConfidenceScore :=
  let factors : Factors :=
    { semantic_similarity := calc_semantic_similarity similarity_scores
      keyword_match := (calc_keyword_match query retrieved_docs : ℝ)
      context_relevance := (calc_context_relevance query retrieved_docs : ℝ)
      data_freshness := (calc_data_freshness now retrieved_docs : ℝ)
      source_reliability := (calc_source_reliability retrieved_docs : ℝ)
      query_clarity := (calc_query_clarity query : ℝ)
      answer_completeness := (calc_answer_completeness query answer : ℝ) }
  let overall_score := overallOf factors
  let level := get_confidence_level overall_score
  { overall_score := overall_score
    level := level
    factors := factors
    explanation := generate_explanation factors.toList overall_score
    recommendations := generate_recommendations factors level }

/-! ### Specification-side definitions (for refinement comparisons)

These definitions follow the specification's words, to be compared with the
definitions above, which follow the source. -/

/-- Follows the spec's words: "a logistic transform centered at 0.5 with
steepness 4" (the standard unit logistic). -/
noncomputable def spec_logistic (x : ℝ) : ℝ :=
  1 / (1 + Real.exp (-(4 * (x - 0.5))))

/-- Follows the spec's words for the `semantic_similarity` factor: the
exponentially-decayed weighted average of the scores "passed through a
logistic transform centered at 0.5 with steepness 4"; empty input yields 0. -/
noncomputable def spec_semantic_similarity (scores : List ℝ) : ℝ :=
  if scores = [] then 0 else spec_logistic (raw_weighted_avg scores)

/-- Follows the spec's words: the single strongest factor by value, ties
broken by encounter order (the earliest-encountered of the maximal factors).
-/
noncomputable def spec_first_max : List (String × ℝ) → Option (String × ℝ)
  | [] => none
  | a :: l =>
      match spec_first_max l with
      | none => some a
      | some m => if m.2 ≤ a.2 then some a else some m

/-- Follows the spec's words: the single weakest factor by value, ties broken
by encounter order (the earliest-encountered of the minimal factors). -/
noncomputable def spec_first_min : List (String × ℝ) → Option (String × ℝ)
  | [] => none
  | a :: l =>
      match spec_first_min l with
      | none => some a
      | some m => if a.2 ≤ m.2 then some a else some m

/-- What the code's explanation actually reports as weakest: the
latest-encountered of the minimal factors (the last element of the stable
descending sort). -/
noncomputable def spec_last_min : List (String × ℝ) → Option (String × ℝ)
  | [] => none
  | a :: l =>
      match spec_last_min l with
      | none => some a
      | some m => if a.2 < m.2 then some a else some m

/-- The seven in-range conjuncts of the spec's factor-range property. -/
def FactorsInRange (f : Factors) : Prop :=
  (0 ≤ f.semantic_similarity ∧ f.semantic_similarity ≤ 1) ∧
  (0 ≤ f.keyword_match ∧ f.keyword_match ≤ 1) ∧
  (0 ≤ f.context_relevance ∧ f.context_relevance ≤ 1) ∧
  (0 ≤ f.data_freshness ∧ f.data_freshness ≤ 1) ∧
  (0 ≤ f.source_reliability ∧ f.source_reliability ≤ 1) ∧
  (0 ≤ f.query_clarity ∧ f.query_clarity ≤ 1) ∧
  (0 ≤ f.answer_completeness ∧ f.answer_completeness ≤ 1)

/-! ### Concrete data used by witnesses and counterexamples -/

/-- A well-formed `(1, 2)` batch: one embedding of width 2. -/
def smallBatch : NDArray2 :=
  ⟨[[3, 4]], 2, by intro v hv; simp only [List.mem_singleton] at hv; subst hv; rfl⟩

/-- A well-formed `(10, 2)` batch: ten embeddings of width 2. -/
def tenBatch : NDArray2 :=
  ⟨List.replicate 10 [3, 4], 2, by
    intro v hv
    rw [List.eq_of_mem_replicate hv]
    rfl⟩

/-- A `(1, 3)` batch, too wide for a dimension-2 index. -/
def badBatch : NDArray2 :=
  ⟨[[1, 2, 3]], 3, by intro v hv; simp only [List.mem_singleton] at hv; subst hv; rfl⟩

/-- A recipe whose name and ingredient list both contain "phở". -/
def rPho : Recipe :=
  { rid := some 1, name := "Phở Bò", ingredients := ["bánh phở", "thịt bò"],
    category := "monchinh" }

/-- A recipe whose ingredient list (but not name) contains "phở". -/
def rGa : Recipe :=
  { rid := some 2, name := "Gà nướng", ingredients := ["gà", "phở khô"],
    category := "monchinh" }

/-- A recipe document stamped 366 days in the future of reference day 0. -/
def futureDoc : Doc := { type := "recipe", createdAt := some (some 366) }

/-- A plain FAQ document. -/
def faqDoc : Doc :=
  { type := "faq", question := "Luộc gà bao lâu?", answer := "Khoảng 30 phút." }

/-- Seven equal factor values, exhibiting ties in both directions. -/
def f03 : Factors := ⟨0.3, 0.3, 0.3, 0.3, 0.3, 0.3, 0.3⟩

/-- Factor values whose weighted overall is 0.275 (`VeryLow`) although the
three factors `_generate_recommendations` inspects all sit at 0.5. -/
def lowFactors : Factors := ⟨0.5, 0.5, 0, 0, 0, 0.5, 0⟩

/-! ## Theorems -/

theorem hitRel_score_le {a b : ℝ × ℕ} (h : hitRel a b) : b.1 ≤ a.1 := by
  rcases h with h | ⟨h, _⟩
  · exact h.le
  · exact h.ge

/-- C1: for every index state and every query embedding, `search(q, k,
threshold)` returns at most `k` results, every returned `similarity_score`
is at least `threshold`, and the results are ordered by descending
similarity. -/
theorem C1_search_contract (M : Type) (st : VDB M) (q : List ℝ) (k : ℕ)
    (threshold : ℝ) :
    (search st q k threshold).length ≤ k ∧
    (∀ h ∈ search st q k threshold, threshold ≤ h.similarity_score) ∧
    (search st q k threshold).Pairwise
      (fun a b => b.similarity_score ≤ a.similarity_score) := by
  unfold search
  split
  · simp
  · dsimp only
    refine ⟨?_, ?_, ?_⟩
    · rw [List.length_map]
      exact le_trans (List.length_filter_le _ _) (List.length_take_le _ _)
    · intro h hh
      rcases List.mem_map.mp hh with ⟨p, hp, rfl⟩
      have := List.of_mem_filter hp
      simpa using this
    · have hsorted := List.sorted_insertionSort hitRel
        ((st.vectors.enum.map (fun p => (dot (l2normalize q) p.2, p.1))))
      have hsub : List.Sublist
          (((List.insertionSort hitRel
              (st.vectors.enum.map (fun p => (dot (l2normalize q) p.2, p.1)))).take
                k).filter (fun p => decide (threshold ≤ p.1)))
            (List.insertionSort hitRel
              (st.vectors.enum.map (fun p => (dot (l2normalize q) p.2, p.1)))) :=
        (List.filter_sublist _).trans (List.take_sublist _ _)
      exact List.Pairwise.map _ (fun a b hab => hitRel_score_le hab)
        (hsorted.sublist hsub)

/-- C8: when the index holds zero vectors, `search` returns the empty list
for every query embedding, every `k` and every threshold. -/
theorem C8_empty_index (M : Type) (st : VDB M) (q : List ℝ) (k : ℕ) (t : ℝ)
    (h : st.vectors.length = 0) : search st q k t = [] := by
  unfold search
  rw [if_pos h]

theorem C8_empty_index_witness :
    search (createVDB ℕ 2 "Flat") [1, 0] 5 0.5 = [] :=
  C8_empty_index ℕ (createVDB ℕ 2 "Flat") [1, 0] 5 0.5 rfl

/-- C7: `add_documents` fails with the dimension-mismatch error as soon as
any vector of the (rectangular) batch has a length different from the index
dimension, and the state comes back unchanged. -/
theorem C7_dimension_mismatch (M : Type) (st : VDB M) (e : NDArray2)
    (md : List M) (v : List ℝ) (hv : v ∈ e.data)
    (hne : v.length ≠ st.dimension) :
    add_documents st e md =
      (st, some (.dimensionMismatch e.cols st.dimension)) := by
  have hc : e.cols ≠ st.dimension := (e.hcols v hv) ▸ hne
  unfold add_documents
  rw [if_pos hc]

theorem C7_dimension_mismatch_witness :
    add_documents (createVDB ℕ 2 "Flat") badBatch [7] =
      (createVDB ℕ 2 "Flat", some (.dimensionMismatch 3 2)) :=
  C7_dimension_mismatch ℕ (createVDB ℕ 2 "Flat") badBatch [7] [1, 2, 3]
    (by simp [badBatch]) (by simp [createVDB])

/-- C3 (violated by the code): two successive one-row batches inserted into
a fresh untrained `IVF` manager both succeed, yet afterwards the metadata
table holds 2 entries while the index holds a single vector — the second
call replaced the fallback `IndexFlatIP` with a new empty one, discarding
the first stored vector while keeping its metadata row. -/
theorem C3_lockstep_violation :
    (add_documents (createVDB ℕ 2 "IVF") smallBatch [0]).2 = none ∧
    (add_documents (add_documents (createVDB ℕ 2 "IVF") smallBatch [0]).1
        smallBatch [1]).2 = none ∧
    (add_documents (add_documents (createVDB ℕ 2 "IVF") smallBatch [0]).1
        smallBatch [1]).1.metadata.length = 2 ∧
    (add_documents (add_documents (createVDB ℕ 2 "IVF") smallBatch [0]).1
        smallBatch [1]).1.vectors.length = 1 :=
  ⟨rfl, rfl, rfl, rfl⟩

/-- C4 (violated by the code): a 10-row batch into a fresh untrained `IVF`
manager succeeds and does fall back to a flat index (the actual index object
becomes `IndexFlatIP` and answers over the 10 added vectors), but the
fallback is invisible in `get_stats`: the stats still report
`index_type = "IVF"` and `is_trained = false`, exactly as before the call —
no field records the fallback. -/
theorem C4_silent_fallback :
    (add_documents (createVDB ℕ 2 "IVF") tenBatch (List.replicate 10 0)).2
        = none ∧
    (add_documents (createVDB ℕ 2 "IVF") tenBatch
        (List.replicate 10 0)).1.indexKind = .flat ∧
    (get_stats (add_documents (createVDB ℕ 2 "IVF") tenBatch
        (List.replicate 10 0)).1).index_type = "IVF" ∧
    (get_stats (add_documents (createVDB ℕ 2 "IVF") tenBatch
        (List.replicate 10 0)).1).is_trained = false ∧
    (add_documents (createVDB ℕ 2 "IVF") tenBatch
        (List.replicate 10 0)).1.vectors.length = 10 ∧
    (add_documents (createVDB ℕ 2 "IVF") tenBatch
        (List.replicate 10 0)).1.metadata.length = 10 :=
  ⟨rfl, rfl, rfl, rfl, rfl, rfl⟩

/-! ### Deduplication lemmas for the merge -/

theorem mem_of_mem_dedupLoop (l : List SR) :
    ∀ (seen : List (Option ℕ)) (x : SR), x ∈ dedupLoop l seen → x ∈ l := by
  induction l with
  | nil => intro seen x h; simp [dedupLoop] at h
  | cons r rest ih =>
    intro seen x h
    rw [dedupLoop] at h
    split at h
    · exact List.mem_cons_of_mem _ (ih _ _ h)
    · rcases List.mem_cons.mp h with rfl | h'
      · exact List.mem_cons_self _ _
      · exact List.mem_cons_of_mem _ (ih _ _ h')

theorem rid_not_in_seen_of_mem_dedupLoop (l : List SR) :
    ∀ (seen : List (Option ℕ)) (x : SR),
      x ∈ dedupLoop l seen → x.recipe.rid ∉ seen := by
  induction l with
  | nil => intro seen x h; simp [dedupLoop] at h
  | cons r rest ih =>
    intro seen x h
    rw [dedupLoop] at h
    split at h
    case isTrue hseen => exact ih _ _ h
    case isFalse hseen =>
      rcases List.mem_cons.mp h with rfl | h'
      · exact hseen
      · exact fun hc =>
          (ih _ _ h') (List.mem_cons_of_mem _ hc)

theorem mem_left_of_mem_dedupLoop (A : List SR) :
    ∀ (B : List SR) (seen : List (Option ℕ)) (x : SR),
      x ∈ dedupLoop (A ++ B) seen →
      (∃ a ∈ A, a.recipe.rid = x.recipe.rid) → x ∈ A := by
  induction A with
  | nil => intro B seen x _ hex; simp at hex
  | cons a A' ih =>
    intro B seen x h hex
    rw [List.cons_append, dedupLoop] at h
    split at h
    case isTrue hseen =>
      rcases hex with ⟨w, hw, hwr⟩
      rcases List.mem_cons.mp hw with rfl | hw'
      · have hnot := rid_not_in_seen_of_mem_dedupLoop _ _ _ h
        rw [← hwr] at hnot
        exact absurd hseen hnot
      · exact List.mem_cons_of_mem _ (ih _ _ _ h ⟨w, hw', hwr⟩)
    case isFalse hseen =>
      rcases List.mem_cons.mp h with rfl | h'
      · exact List.mem_cons_self _ _
      · rcases hex with ⟨w, hw, hwr⟩
        rcases List.mem_cons.mp hw with rfl | hw'
        · have hnot := rid_not_in_seen_of_mem_dedupLoop _ _ _ h'
          rw [← hwr] at hnot
          exact absurd (List.mem_cons_self _ _) hnot
        · exact List.mem_cons_of_mem _ (ih _ _ _ h' ⟨w, hw', hwr⟩)

theorem dedupLoop_eq_spec (l : List SR) :
    ∀ (seen : List (Option ℕ)),
      dedupLoop l seen =
        dedupByIdSpec (l.filter (fun x => decide (x.recipe.rid ∉ seen))) := by
  induction l with
  | nil => intro seen; simp [dedupLoop, dedupByIdSpec]
  | cons r rest ih =>
    intro seen
    rw [dedupLoop, List.filter_cons]
    split
    case isTrue hseen =>
      rw [if_neg (by simpa using hseen)]
      exact ih seen
    case isFalse hseen =>
      rw [if_pos (by simpa using hseen)]
      rw [dedupByIdSpec]
      congr 1
      rw [ih (r.recipe.rid :: seen)]
      congr 1
      rw [List.filter_filter]
      apply List.filter_congr
      intro x _
      by_cases h1 : x.recipe.rid = r.recipe.rid <;>
        by_cases h2 : x.recipe.rid ∈ seen <;>
          simp [h1, h2, List.mem_cons]

theorem match_type_of_mem_exact (query : String) (recipes : List Recipe)
    (x : SR) (hx : x ∈ exact_match_search query recipes) :
    x.match_type = "exact_name" := by
  unfold exact_match_search at hx
  rcases List.mem_map.mp hx with ⟨r, _, rfl⟩
  rfl

/-- C2: `multi_strategy_search` concatenates the four strategy result lists
in the fixed priority order exact, ingredient, category, semantic;
deduplicates by document id keeping the first occurrence; truncates to at
most 10 results; and in particular any returned entry sharing its id with an
exact-match result carries the exact-match `match_type`. -/
theorem C2_merge_contract (query : String) (recipes : List Recipe)
    (embeddings : Option (List (List ℝ))) (encode : Option (String → List ℝ)) :
    multi_strategy_search query recipes embeddings encode =
      (dedupByIdSpec
        (exact_match_search query recipes ++
         ingredient_based_search query recipes ++
         category_filter_search query recipes ++
         (match embeddings, encode with
          | some e, some m => semantic_search query recipes e m
          | _, _ => []))).take 10 ∧
    (multi_strategy_search query recipes embeddings encode).length ≤ 10 ∧
    (∀ x ∈ multi_strategy_search query recipes embeddings encode,
      ∀ e ∈ exact_match_search query recipes,
        e.recipe.rid = x.recipe.rid → x.match_type = "exact_name") := by
  have hfilter : ∀ (l : List SR),
      l.filter (fun x => decide (x.recipe.rid ∉ ([] : List (Option ℕ)))) = l :=
    fun l => List.filter_eq_self.mpr (by intro a _; simp)
  refine ⟨?_, ?_, ?_⟩
  · unfold multi_strategy_search
    dsimp only
    rw [dedupLoop_eq_spec, hfilter]
  · unfold multi_strategy_search
    dsimp only
    exact List.length_take_le _ _
  · intro x hx e he hrid
    unfold multi_strategy_search at hx
    dsimp only at hx
    have hx' := List.take_subset _ _ hx
    rw [List.append_assoc, List.append_assoc] at hx'
    exact match_type_of_mem_exact query recipes x
      (mem_left_of_mem_dedupLoop _ _ _ _ hx' ⟨e, he, hrid⟩)

theorem C2_merge_contract_witness :
    multi_strategy_search "phở" [rPho, rGa] none none =
      (dedupByIdSpec
        (exact_match_search "phở" [rPho, rGa] ++
         ingredient_based_search "phở" [rPho, rGa] ++
         category_filter_search "phở" [rPho, rGa] ++ [])).take 10 ∧
    (multi_strategy_search "phở" [rPho, rGa] none none).length ≤ 10 ∧
    ({ recipe := rPho, match_type := "exact_name" } : SR).match_type =
      "exact_name" := by
  obtain ⟨h1, h2, h3⟩ := C2_merge_contract "phở" [rPho, rGa] none none
  refine ⟨h1, h2, ?_⟩
  have hout : multi_strategy_search "phở" [rPho, rGa] none none =
      [{ recipe := rPho, match_type := "exact_name" },
       { recipe := rGa, match_type := "ingredient" }] := rfl
  have hexact : exact_match_search "phở" [rPho, rGa] =
      [{ recipe := rPho, match_type := "exact_name" }] := rfl
  exact h3 _ (by rw [hout]; exact List.mem_cons_self _ _) _
    (by rw [hexact]; exact List.mem_cons_self _ _) rfl

/-! ### Sorting lemmas for the explanation -/

theorem insertionSort_head?_eq (l : List (String × ℝ)) :
    (List.insertionSort factorRel l).head? = spec_first_max l := by
  induction l with
  | nil => rfl
  | cons a l ih =>
    rw [List.insertionSort, spec_first_max]
    cases hs : List.insertionSort factorRel l with
    | nil =>
      have hl : l = [] := by
        have hp := List.perm_insertionSort factorRel l
        rw [hs] at hp
        exact hp.nil_eq.symm
      subst hl
      rfl
    | cons b s' =>
      have hb : spec_first_max l = some b := by
        rw [← ih, hs]
        rfl
      rw [hb]
      dsimp only
      by_cases h : factorRel a b
      · have h' : b.2 ≤ a.2 := h
        rw [List.orderedInsert_of_le _ _ h]
        rw [List.head?_cons, if_pos h']
      · have h' : ¬ b.2 ≤ a.2 := h
        have hoi : List.orderedInsert factorRel a (b :: s') =
            b :: List.orderedInsert factorRel a s' := by
          rw [List.orderedInsert, if_neg h]
        rw [hoi, List.head?_cons, if_neg h']

theorem sorted_getLast?_le (s : List (String × ℝ)) :
    ∀ (b : String × ℝ), (b :: s).Sorted factorRel →
      ∀ m, (b :: s).getLast? = some m → m.2 ≤ b.2 := by
  induction s with
  | nil =>
    intro b _ m hm
    simp only [List.getLast?_singleton, Option.some.injEq] at hm
    rw [← hm]
  | cons c s'' ih =>
    intro b hs m hm
    rw [List.getLast?_cons_cons] at hm
    have h1 : m.2 ≤ c.2 := ih c hs.of_cons m hm
    have h2 : factorRel b c :=
      List.rel_of_sorted_cons hs c (List.mem_cons_self _ _)
    exact le_trans h1 h2

theorem orderedInsert_getLast? (a : String × ℝ) :
    ∀ (s : List (String × ℝ)), s.Sorted factorRel →
      (List.orderedInsert factorRel a s).getLast? =
        match s.getLast? with
        | none => some a
        | some m => if a.2 < m.2 then some a else some m := by
  intro s
  induction s with
  | nil => intro _; rfl
  | cons b s' ih =>
    intro hs
    by_cases h : factorRel a b
    · rw [List.orderedInsert_of_le _ _ h, List.getLast?_cons_cons]
      obtain ⟨m, hm⟩ : ∃ m, (b :: s').getLast? = some m :=
        ⟨(b :: s').getLast (List.cons_ne_nil _ _),
         List.getLast?_eq_getLast_of_ne_nil (List.cons_ne_nil _ _)⟩
      rw [hm]
      have hmb : m.2 ≤ b.2 := sorted_getLast?_le s' b hs m hm
      dsimp only
      rw [if_neg (not_lt.mpr (le_trans hmb h))]
    · have hoi : List.orderedInsert factorRel a (b :: s') =
          b :: List.orderedInsert factorRel a s' := by
        rw [List.orderedInsert, if_neg h]
      rw [hoi]
      cases s' with
      | nil =>
        have hab : a.2 < b.2 := not_le.mp h
        rw [show List.orderedInsert factorRel a [] = [a] from rfl]
        rw [List.getLast?_cons_cons, List.getLast?_singleton,
          List.getLast?_singleton]
        dsimp only
        rw [if_pos hab]
      | cons c s'' =>
        have hne : List.orderedInsert factorRel a (c :: s'') ≠ [] := by
          intro hcon
          have hlen := List.orderedInsert_length factorRel (c :: s'') a
          rw [hcon] at hlen
          simp at hlen
        obtain ⟨y, Y, hY⟩ := List.exists_cons_of_ne_nil hne
        rw [hY, List.getLast?_cons_cons, ← hY, ih hs.of_cons,
          List.getLast?_cons_cons]

theorem insertionSort_getLast?_eq (l : List (String × ℝ)) :
    (List.insertionSort factorRel l).getLast? = spec_last_min l := by
  induction l with
  | nil => rfl
  | cons a l ih =>
    rw [List.insertionSort,
      orderedInsert_getLast? a _ (List.sorted_insertionSort _ _), ih,
      spec_last_min]

/-! ### Weighted-sum evaluation -/

theorem overallOf_eq (f : Factors) :
    overallOf f =
      f.semantic_similarity * 0.25 + f.keyword_match * 0.20 +
      f.context_relevance * 0.15 + f.data_freshness * 0.10 +
      f.source_reliability * 0.10 + f.query_clarity * 0.10 +
      f.answer_completeness * 0.10 := by
  have w1 : weightOf "semantic_similarity" = 0.25 := rfl
  have w2 : weightOf "keyword_match" = 0.20 := rfl
  have w3 : weightOf "context_relevance" = 0.15 := rfl
  have w4 : weightOf "data_freshness" = 0.10 := rfl
  have w5 : weightOf "source_reliability" = 0.10 := rfl
  have w6 : weightOf "query_clarity" = 0.10 := rfl
  have w7 : weightOf "answer_completeness" = 0.10 := rfl
  unfold overallOf Factors.toList
  simp only [List.map, List.sum_cons, List.sum_nil, w1, w2, w3, w4, w5, w6, w7]
  ring

/-- C9 (amended): for every factor mapping the explanation reports the
overall score, the strongest factor with ties broken toward the
earliest-encountered factor, and the weakest factor with ties broken toward
the latest-encountered factor. -/
theorem C9_explanation_extremes (f : Factors) (o : ℝ) :
    generate_explanation f.toList o =
      { overall := o,
        strongest := spec_first_max f.toList,
        weakest := spec_last_min f.toList } := by
  unfold generate_explanation
  dsimp only
  rw [insertionSort_head?_eq, insertionSort_getLast?_eq]

/-- C9 (counterexample): with all seven factors equal, the code reports the
last-encountered factor (`answer_completeness`) as weakest, not the
earliest-encountered one (`semantic_similarity`) that first-encounter tie
breaking would give. -/
theorem C9_weakest_tie_counterexample :
    (generate_explanation f03.toList 0.3).weakest ≠
      spec_first_min f03.toList := by
  have h1 : (generate_explanation f03.toList 0.3).weakest =
      spec_last_min f03.toList := by
    unfold generate_explanation
    dsimp only
    rw [insertionSort_getLast?_eq]
  have h2 : spec_last_min f03.toList = some ("answer_completeness", 0.3) := by
    simp [f03, Factors.toList, spec_last_min, lt_self_iff_false]
  have h3 : spec_first_min f03.toList = some ("semantic_similarity", 0.3) := by
    simp [f03, Factors.toList, spec_first_min, le_refl]
  rw [h1, h2, h3]
  simp only [ne_eq, Option.some.injEq, Prod.mk.injEq, not_and]
  intro hfst
  exact absurd hfst (by decide)

/-- C10: whenever `semantic_similarity`, `keyword_match` and `query_clarity`
all reach 0.5, `_generate_recommendations` at a Low or VeryLow level returns
no recommendation at all, and such factor values with a sub-0.5 overall
score exist. -/
theorem C10_no_recommendations :
    (∀ (f : Factors) (level : ConfidenceLevel),
        level = .low ∨ level = .veryLow →
        0.5 ≤ f.semantic_similarity →
        0.5 ≤ f.keyword_match →
        0.5 ≤ f.query_clarity →
        generate_recommendations f level = []) ∧
    (∃ f : Factors,
        overallOf f < 0.5 ∧
        get_confidence_level (overallOf f) = .veryLow ∧
        0.5 ≤ f.semantic_similarity ∧ 0.5 ≤ f.keyword_match ∧
        0.5 ≤ f.query_clarity ∧
        generate_recommendations f (get_confidence_level (overallOf f)) = []) := by
  have hmain : ∀ (f : Factors) (level : ConfidenceLevel),
      level = .low ∨ level = .veryLow →
      0.5 ≤ f.semantic_similarity →
      0.5 ≤ f.keyword_match →
      0.5 ≤ f.query_clarity →
      generate_recommendations f level = [] := by
    intro f level hlv h1 h2 h3
    unfold generate_recommendations
    rw [if_pos hlv, if_neg (not_lt.mpr h1), if_neg (not_lt.mpr h2),
      if_neg (not_lt.mpr h3)]
    rfl
  have hoverall : overallOf lowFactors = 0.275 := by
    rw [overallOf_eq]
    norm_num [lowFactors]
  have hlevel : get_confidence_level (overallOf lowFactors) = .veryLow := by
    rw [hoverall]
    unfold get_confidence_level
    norm_num
  refine ⟨hmain, lowFactors, ?_, hlevel, ?_, ?_, ?_, ?_⟩
  · rw [hoverall]; norm_num
  · norm_num [lowFactors]
  · norm_num [lowFactors]
  · norm_num [lowFactors]
  · rw [hlevel]
    exact hmain lowFactors .veryLow (Or.inr rfl) (by norm_num [lowFactors])
      (by norm_num [lowFactors]) (by norm_num [lowFactors])

theorem C10_no_recommendations_witness :
    generate_recommendations lowFactors .veryLow = [] :=
  C10_no_recommendations.1 lowFactors .veryLow (Or.inr rfl)
    (by norm_num [lowFactors]) (by norm_num [lowFactors])
    (by norm_num [lowFactors])

/-! ### Factor bounds -/

theorem meanQ_nonneg (l : List ℚ) (h : ∀ x ∈ l, 0 ≤ x) : 0 ≤ meanQ l := by
  unfold meanQ
  exact div_nonneg (List.sum_nonneg h) (by positivity)

theorem meanQ_le_one (l : List ℚ) (hne : l ≠ []) (h : ∀ x ∈ l, x ≤ 1) :
    meanQ l ≤ 1 := by
  unfold meanQ
  rw [div_le_one (by exact_mod_cast List.length_pos.mpr hne)]
  have hs := List.sum_le_card_nsmul l 1 h
  simpa using hs

theorem semantic_similarity_mem (scores : List ℝ) :
    0 ≤ calc_semantic_similarity scores ∧
      calc_semantic_similarity scores ≤ 1 := by
  unfold calc_semantic_similarity
  split
  · norm_num
  · dsimp only
    refine ⟨le_min (by positivity) (by norm_num), min_le_right _ _⟩

theorem keyword_match_mem (q : String) (docs : List Doc) :
    0 ≤ calc_keyword_match q docs ∧ calc_keyword_match q docs ≤ 1 := by
  unfold calc_keyword_match
  split
  · norm_num
  · dsimp only
    split
    · norm_num
    · refine ⟨le_min (by positivity) (by norm_num), min_le_right _ _⟩

theorem foldl_if_add_le {α : Type} (c : α → Bool) (δ : ℚ) (hδ : 0 ≤ δ) :
    ∀ (l : List α) (init : ℚ),
      init ≤ l.foldl (fun s a => if c a then s + δ else s) init := by
  intro l
  induction l with
  | nil => intro init; exact le_refl _
  | cons a l ih =>
    intro init
    rw [List.foldl_cons]
    refine le_trans ?_ (ih _)
    split
    · linarith
    · exact le_refl _

theorem contextDocScore_mem (ql : List Char) (d : Doc) :
    0 ≤ contextDocScore ql d ∧ contextDocScore ql d ≤ 1 := by
  unfold contextDocScore
  dsimp only
  have h0 : (0:ℚ) ≤ cookingKeywords.foldl
      (fun s kv =>
        if kv.2.any (fun kw => containsL ql kw.toList) &&
           kv.2.any (fun kw => containsL (contextDocText d) kw.toList)
        then s + 0.2 else s) 0 :=
    foldl_if_add_le _ 0.2 (by norm_num) cookingKeywords 0
  refine ⟨le_min ?_ (by norm_num), min_le_right _ _⟩
  split_ifs <;> linarith

theorem context_relevance_mem (q : String) (docs : List Doc) :
    0 ≤ calc_context_relevance q docs ∧ calc_context_relevance q docs ≤ 1 := by
  unfold calc_context_relevance
  split
  · norm_num
  case isFalse hne =>
    constructor
    · refine meanQ_nonneg _ fun x hx => ?_
      rcases List.mem_map.mp hx with ⟨d, _, rfl⟩
      exact (contextDocScore_mem _ d).1
    · refine meanQ_le_one _ (by simpa using hne) fun x hx => ?_
      rcases List.mem_map.mp hx with ⟨d, _, rfl⟩
      exact (contextDocScore_mem _ d).2

theorem freshnessDocScore_mem (now : ℤ) (d : Doc)
    (h : ∀ t, d.type = "recipe" → d.createdAt = some (some t) → t ≤ now) :
    0 ≤ freshnessDocScore now d ∧ freshnessDocScore now d ≤ 1 := by
  unfold freshnessDocScore
  split
  case isTrue hty =>
    cases hcr : d.createdAt with
    | none => norm_num
    | some o =>
      cases o with
      | none => norm_num
      | some t =>
        have ht : t ≤ now := h t hty hcr
        refine ⟨le_max_left _ _, max_le (by norm_num) ?_⟩
        have hd : (0:ℚ) ≤ ((now - t : ℤ) : ℚ) / 365 := by
          apply div_nonneg _ (by norm_num)
          exact_mod_cast sub_nonneg.mpr ht
        linarith
  case isFalse => norm_num

theorem data_freshness_mem (now : ℤ) (docs : List Doc)
    (h : ∀ d ∈ docs, ∀ t, d.type = "recipe" →
      d.createdAt = some (some t) → t ≤ now) :
    0 ≤ calc_data_freshness now docs ∧ calc_data_freshness now docs ≤ 1 := by
  unfold calc_data_freshness
  split
  · norm_num
  case isFalse hne =>
    constructor
    · refine meanQ_nonneg _ fun x hx => ?_
      rcases List.mem_map.mp hx with ⟨d, hd, rfl⟩
      exact (freshnessDocScore_mem now d (h d hd)).1
    · refine meanQ_le_one _ (by simpa using hne) fun x hx => ?_
      rcases List.mem_map.mp hx with ⟨d, hd, rfl⟩
      exact (freshnessDocScore_mem now d (h d hd)).2

theorem reliabilityDocScore_mem (d : Doc) :
    0 ≤ reliabilityDocScore d ∧ reliabilityDocScore d ≤ 1 := by
  unfold reliabilityDocScore
  split_ifs <;> norm_num

theorem source_reliability_mem (docs : List Doc) :
    0 ≤ calc_source_reliability docs ∧ calc_source_reliability docs ≤ 1 := by
  unfold calc_source_reliability
  split
  · norm_num
  case isFalse hne =>
    constructor
    · refine meanQ_nonneg _ fun x hx => ?_
      rcases List.mem_map.mp hx with ⟨d, _, rfl⟩
      exact (reliabilityDocScore_mem d).1
    · refine meanQ_le_one _ (by simpa using hne) fun x hx => ?_
      rcases List.mem_map.mp hx with ⟨d, _, rfl⟩
      exact (reliabilityDocScore_mem d).2

theorem query_clarity_mem (q : String) :
    0 ≤ calc_query_clarity q ∧ calc_query_clarity q ≤ 1 := by
  unfold calc_query_clarity
  dsimp only
  split_ifs <;> norm_num

theorem answer_completeness_mem (q a : String) :
    0 ≤ calc_answer_completeness q a ∧ calc_answer_completeness q a ≤ 1 := by
  unfold calc_answer_completeness
  dsimp only
  split_ifs <;> norm_num

theorem overallOf_mem (f : Factors) (h : FactorsInRange f) :
    0 ≤ overallOf f ∧ overallOf f ≤ 1 := by
  obtain ⟨⟨a0, a1⟩, ⟨b0, b1⟩, ⟨c0, c1⟩, ⟨d0, d1⟩, ⟨e0, e1⟩, ⟨g0, g1⟩,
    ⟨i0, i1⟩⟩ := h
  rw [overallOf_eq]
  constructor
  · have m1 := mul_nonneg a0 (show (0:ℝ) ≤ 0.25 by norm_num)
    have m2 := mul_nonneg b0 (show (0:ℝ) ≤ 0.20 by norm_num)
    have m3 := mul_nonneg c0 (show (0:ℝ) ≤ 0.15 by norm_num)
    have m4 := mul_nonneg d0 (show (0:ℝ) ≤ 0.10 by norm_num)
    have m5 := mul_nonneg e0 (show (0:ℝ) ≤ 0.10 by norm_num)
    have m6 := mul_nonneg g0 (show (0:ℝ) ≤ 0.10 by norm_num)
    have m7 := mul_nonneg i0 (show (0:ℝ) ≤ 0.10 by norm_num)
    linarith
  · have m1 := mul_le_of_le_one_left (show (0:ℝ) ≤ 0.25 by norm_num) a1
    have m2 := mul_le_of_le_one_left (show (0:ℝ) ≤ 0.20 by norm_num) b1
    have m3 := mul_le_of_le_one_left (show (0:ℝ) ≤ 0.15 by norm_num) c1
    have m4 := mul_le_of_le_one_left (show (0:ℝ) ≤ 0.10 by norm_num) d1
    have m5 := mul_le_of_le_one_left (show (0:ℝ) ≤ 0.10 by norm_num) e1
    have m6 := mul_le_of_le_one_left (show (0:ℝ) ≤ 0.10 by norm_num) g1
    have m7 := mul_le_of_le_one_left (show (0:ℝ) ≤ 0.10 by norm_num) i1
    linarith

/-- C5 (amended): with every retrieved recipe timestamp at or before the
reference clock, each of the seven factors produced by
`calculate_confidence` lies within `[0, 1]`, the weighted overall score lies
within `[0, 1]`, and the weights sum to 1; the hypothesis is needed because
a future-stamped recipe drives `data_freshness` above 1. -/
theorem C5_factor_ranges (now : ℤ) (query : String) (docs : List Doc)
    (scores : List ℝ) (answer : String)
    (hfresh : ∀ d ∈ docs, ∀ t, d.type = "recipe" →
      d.createdAt = some (some t) → t ≤ now) :
    FactorsInRange (calculate_confidence now query docs scores answer).factors ∧
    0 ≤ (calculate_confidence now query docs scores answer).overall_score ∧
    (calculate_confidence now query docs scores answer).overall_score ≤ 1 ∧
    (weights.map (fun kv => kv.2)).sum = 1 := by
  have hrange :
      FactorsInRange (calculate_confidence now query docs scores answer).factors := by
    unfold FactorsInRange calculate_confidence
    dsimp only
    refine ⟨semantic_similarity_mem scores, ?_, ?_, ?_, ?_, ?_, ?_⟩
    · exact ⟨by exact_mod_cast (keyword_match_mem query docs).1,
        by exact_mod_cast (keyword_match_mem query docs).2⟩
    · exact ⟨by exact_mod_cast (context_relevance_mem query docs).1,
        by exact_mod_cast (context_relevance_mem query docs).2⟩
    · exact ⟨by exact_mod_cast (data_freshness_mem now docs hfresh).1,
        by exact_mod_cast (data_freshness_mem now docs hfresh).2⟩
    · exact ⟨by exact_mod_cast (source_reliability_mem docs).1,
        by exact_mod_cast (source_reliability_mem docs).2⟩
    · exact ⟨by exact_mod_cast (query_clarity_mem query).1,
        by exact_mod_cast (query_clarity_mem query).2⟩
    · exact ⟨by exact_mod_cast (answer_completeness_mem query answer).1,
        by exact_mod_cast (answer_completeness_mem query answer).2⟩
  have ho := overallOf_mem _ hrange
  exact ⟨hrange, ho.1, ho.2, by norm_num [weights]⟩

theorem C5_factor_ranges_witness :
    FactorsInRange (calculate_confidence 0 "abc" [faqDoc] [] "xyz").factors ∧
    0 ≤ (calculate_confidence 0 "abc" [faqDoc] [] "xyz").overall_score ∧
    (calculate_confidence 0 "abc" [faqDoc] [] "xyz").overall_score ≤ 1 ∧
    (weights.map (fun kv => kv.2)).sum = 1 :=
  C5_factor_ranges 0 "abc" [faqDoc] [] "xyz" (by
    intro d hd t hty _
    simp only [List.mem_singleton] at hd
    subst hd
    exact absurd hty (by decide))

/-- C5 (counterexample): for a recipe document time-stamped 366 days after
the reference clock, the `data_freshness` factor produced by
`calculate_confidence` exceeds 1, so the claim's unconditional `[0, 1]`
range fails. -/
theorem C5_freshness_above_one :
    1 < (calculate_confidence 0 "q" [futureDoc] [] "a").factors.data_freshness := by
  show (1:ℝ) < ((calc_data_freshness 0 [futureDoc] : ℚ) : ℝ)
  have h : (1:ℚ) < calc_data_freshness 0 [futureDoc] := by
    unfold calc_data_freshness
    rw [if_neg (by simp)]
    unfold meanQ
    simp only [List.map, freshnessDocScore, futureDoc]
    simp only [if_true]
    push_cast
    norm_num [sup_eq_max, max_def]
  exact_mod_cast h

/-! ### Semantic-similarity shape -/

theorem raw_weighted_avg_singleton (x : ℝ) : raw_weighted_avg [x] = x := by
  unfold raw_weighted_avg
  simp [List.range_succ, Real.exp_zero]

/-- C6 (amended): the `semantic_similarity` factor equals the
exponentially-decayed weighted average of the ordered scores pushed through
*twice* the unit logistic centered at 0.5 with steepness 4, capped at 1
(rather than the unit logistic itself); the empty list yields exactly 0. -/
theorem C6_semantic_similarity_form (scores : List ℝ) :
    calc_semantic_similarity scores =
      if scores = [] then 0
      else min (2 * spec_logistic (raw_weighted_avg scores)) 1 := by
  unfold calc_semantic_similarity spec_logistic
  by_cases hs : scores = []
  · rw [if_pos hs, if_pos hs]
  · rw [if_neg hs, if_neg hs]
    dsimp only
    rw [mul_one_div]

/-- C6 (counterexample): at the single score 0.5 the code produces 1 while
the spec's unit logistic transform of the weighted average produces 0.5, so
the factor does not equal the logistic transform of the decayed average. -/
theorem C6_not_unit_logistic :
    calc_semantic_similarity [(0.5 : ℝ)] ≠
      spec_semantic_similarity [(0.5 : ℝ)] := by
  have h1 : calc_semantic_similarity [(0.5 : ℝ)] = 1 := by
    unfold calc_semantic_similarity
    rw [if_neg (by simp), raw_weighted_avg_singleton]
    norm_num [Real.exp_zero]
  have h2 : spec_semantic_similarity [(0.5 : ℝ)] = 1 / 2 := by
    unfold spec_semantic_similarity spec_logistic
    rw [if_neg (by simp), raw_weighted_avg_singleton]
    norm_num [Real.exp_zero]
  rw [h1, h2]
  norm_num

end Cookify
